import Mathlib

/-!
Shallow embedding of the echosignal article-extraction pipeline
(articles/parsers/base_parser.py, cnbc_parser.py, roots_of_loneliness_parser.py,
parser_manager.py and articles/models.py), together with theorems settling the
specification claims about it.

Conventions used throughout:

* Python strings are Lean `String`s; `x in s` (substring test) is `strContains`;
  `s.strip()` is `pyStrip`; `s.lower()` is `lowerStr`.
* A BeautifulSoup document is modelled as the flattened, document-order list of
  its elements (`Doc`); `soup.find(...)` is `List.find?` with the translated
  predicate.  A bs4 `Tag` defines `__len__` as the number of its children, so
  the pervasive `if element:` truthiness test succeeds only for a found element
  with at least one child; `findTruthy` packages find-then-truthiness.
* Django's ORM is explicit state passing over `DbState`; machine dates are
  abstract `Nat`s; regex helpers of the standard library that only extract a
  substring (`re.search` group extraction, `datetime.strptime`) are passed in
  as `String -> Option _` oracles, `none` modelling a failed match / a raised
  `ValueError`.
* The project runs Django in autocommit mode: no `transaction.atomic` appears
  anywhere in the repository, so every successful ORM call is durable even when
  a later statement of the same `try` block raises.  `save_to_db` therefore
  takes an explicit `FailureSchedule` saying which ORM call (if any) raises,
  and on a raise it returns `none` together with the state built up so far.
-/

set_option autoImplicit false

namespace EchoSignal

/-! ## Python string primitives -/

/-- Contiguous-sublist test on character lists. -/
def listContainsSub (hay needle : List Char) : Bool :=
  match hay with
  | [] => needle.isEmpty
  | _ :: rest => needle.isPrefixOf hay || listContainsSub rest needle

/-- Python `needle in hay` substring test. -/
def strContains (hay needle : String) : Bool :=
  listContainsSub hay.toList needle.toList

/-- Python `str.lower()` (ASCII case mapping, character by character). -/
def lowerStr (s : String) : String :=
  String.mk (s.toList.map Char.toLower)


/-- Characters of Python `\s` (ASCII range), also the set stripped by `str.strip()`. -/
def isPySpace (c : Char) : Bool :=
  c = ' ' || c = '\t' || c = '\n' || c = '\r' || c = '\x0b' || c = '\x0c'

/-- Python `str.strip()`: drop leading and trailing whitespace. -/
def pyStrip (s : String) : String :=
  String.mk (((s.toList.dropWhile isPySpace).reverse.dropWhile isPySpace).reverse)

/-- Characters matched by `[-\s]` in Django's slugify. -/
def isDashOrSpace (c : Char) : Bool :=
  c = '-' || isPySpace c

/-- Characters kept by slugify's first pass, `[^\w\s-]` removed (ASCII `\w`). -/
def isSlugKept (c : Char) : Bool :=
  c.isAlphanum || c = '_' || c = '-' || isPySpace c

/-- Second slugify pass `re.sub(r"[-\s]+", "-", value)`, run with a flag
recording whether the previous character belonged to a dash/whitespace run:
every maximal run becomes a single dash. -/
def collapseDashAux : Bool → List Char → List Char
  | _, [] => []
  | inRun, c :: rest =>
    if isDashOrSpace c then
      if inRun then collapseDashAux true rest
      else '-' :: collapseDashAux true rest
    else
      c :: collapseDashAux false rest

/-- Collapse every maximal `[-\s]+` run to a single `-`. -/
def collapseDashRuns (l : List Char) : List Char :=
  collapseDashAux false l

/-- Django `slugify` (ASCII inputs; the NFKD/ASCII-coercion step is the identity
on them): lowercase, drop `[^\w\s-]`, collapse `[-\s]+` to `-`, strip `-_`. -/
def slugify (s : String) : String :=
  let cleaned := ((lowerStr s).toList.filter isSlugKept)
  let collapsed := collapseDashRuns cleaned
  let strip := fun c => c = '-' || c = '_'
  String.mk (((collapsed.dropWhile strip).reverse.dropWhile strip).reverse)

/-! ## BeautifulSoup document model -/

/-- One element of the parsed document: tag name, `class` attribute values,
other attributes, rendered text (`.text`) and number of child nodes (bs4's
`Tag.__len__`, which decides the truthiness of `if tag:`). -/
structure Elem where
  tag : String
  classNames : List String
  attrs : List (String × String)
  text : String
  childCount : Nat
deriving DecidableEq, Repr

/-- A document in document order, as scanned by `find` / `find_all`. -/
abbrev Doc := List Elem

/-- Python `if element:` after a `soup.find(...)`: the element must be found and
truthy (bs4 tags with zero children are falsy). -/
def findTruthy (d : Doc) (p : Elem → Bool) : Option Elem :=
  match d.find? p with
  | some e => if e.childCount ≠ 0 then some e else none
  | none => none

theorem findTruthy_mem {d : Doc} {p : Elem → Bool} {e : Elem}
    (h : findTruthy d p = some e) : e ∈ d ∧ p e = true := by
  unfold findTruthy at h
  cases hf : d.find? p with
  | none => simp [hf] at h
  | some x =>
    rw [hf] at h
    by_cases hc : x.childCount ≠ 0
    · simp [hc] at h
      subst h
      exact ⟨List.mem_of_find?_eq_some hf, List.find?_some hf⟩
    · simp [hc] at h

/-! ## articles/models.py -/

/-- The `STATUS_*` constants of `Article`. -/
inductive ArticleStatus where
  | draft
  | pending
  | published
  | rejected
deriving DecidableEq, Repr

/-- The slice of an `Article` instance that `Article.save` manipulates:
`status`, the `_original_status` snapshot taken by `__init__` (and refreshed by
`save`), and `published_at`.  Timestamps are abstract `Nat`s. -/
structure ArticleModel where
  status : ArticleStatus
  origStatus : ArticleStatus
  publishedAt : Option Nat
deriving DecidableEq, Repr

/-- Model of `Article.__init__`: `_original_status` is snapshotted from the status the
instance is loaded or constructed with. -/
def ArticleModel.init (status : ArticleStatus) (publishedAt : Option Nat) : ArticleModel :=
  { status := status, origStatus := status, publishedAt := publishedAt }

/-- Model of `Article.save`: sets `published_at := now` exactly when the status is
transitioning to `PUBLISHED` from a different original status and
`published_at` is still unset; afterwards `_original_status` is refreshed to
the saved status.  (`models.py` lines 174-214.) -/
def ArticleModel.save (a : ArticleModel) (now : Nat) : ArticleModel :=
  let isPublishingNow :=
    a.status = ArticleStatus.published ∧ a.origStatus ≠ ArticleStatus.published
  let a2 :=
    if isPublishingNow ∧ a.publishedAt = none then
      { a with publishedAt := some now }
    else a
  { a2 with origStatus := a2.status }

/-! ## Persistence layer (base_parser.py `save_to_db` over an explicit DB state) -/

/-- A `Category` or `Tag` row (the two models are structurally identical). -/
structure TaxRow where
  name : String
  slug : String
deriving DecidableEq, Repr

/-- An `Article` row as written by `save_to_db`; the many-to-many links are the
slug lists of the attached categories and tags. -/
structure ArticleRow where
  id : Nat
  title : String
  summary : String
  source_name : String
  original_url : String
  publication_date : Option Nat
  authors : String
  full_text_content : String
  status : ArticleStatus
  catSlugs : List String
  tagSlugs : List String
deriving DecidableEq, Repr

/-- The persistent store: category rows, tag rows, article rows, and the next
primary key. -/
structure DbState where
  categories : List TaxRow
  tags : List TaxRow
  articles : List ArticleRow
  nextId : Nat
deriving DecidableEq, Repr

/-- The `data` dict produced by a parser's `parse` and consumed by
`save_to_db`. -/
structure ParsedData where
  title : String
  summary : String
  source_name : String
  original_url : String
  publication_date : Option Nat
  authors : String
  full_text_content : String
  categories : List String
  tags : List String
deriving DecidableEq, Repr

/-- Model of `Model.objects.get_or_create(slug=slugify(name), defaults=\x7b'name': name\x7d)`:
lookup is keyed on the slug alone; the name is only used when creating. -/
def getOrCreate (rows : List TaxRow) (n : String) : TaxRow × List TaxRow :=
  match rows.find? (fun r => r.slug == slugify n) with
  | some r => (r, rows)
  | none => (⟨n, slugify n⟩, rows ++ [⟨n, slugify n⟩])

/-- The category/tag loop of `save_to_db`: get-or-create each name in order.
`fail i` injects a raised database error at the i-th call; under autocommit the
rows created by the earlier calls stay committed, so the incomplete row list is
returned alongside the failure. -/
def processTax (fail : Nat → Bool) :
    List String → List TaxRow → Nat → Option (List TaxRow) × List TaxRow
  | [], rows, _ => (some [], rows)
  | n :: ns, rows, i =>
    if fail i then (none, rows)
    else
      match processTax fail ns (getOrCreate rows n).2 (i + 1) with
      | (none, rows2) => (none, rows2)
      | (some acc, rows2) => (some ((getOrCreate rows n).1 :: acc), rows2)

/-- Which ORM call of a single `save_to_db` run raises (the repository uses no
`transaction.atomic`, so each successful call before the raise is durable). -/
structure FailureSchedule where
  failCat : Nat → Bool
  failTag : Nat → Bool
  failQuery : Bool
  failCreate : Bool
  failAddCats : Bool
  failAddTags : Bool
  failSave : Bool

/-- The all-success schedule: no database call raises. -/
def noFail : FailureSchedule :=
  ⟨fun _ => false, fun _ => false, false, false, false, false, false⟩

/-- Model of `BaseParser.save_to_db` (base_parser.py lines 61-125): get-or-create the
categories and tags, return any existing article with the same `original_url`
unchanged, otherwise create a draft article, attach the taxonomy rows, and save
again.  Any raise is caught by the surrounding `try` and yields `none`; the
state mutated before the raise is kept (autocommit, no transaction). -/
def save_to_db (data : ParsedData) (fs : FailureSchedule) (st : DbState) :
    Option ArticleRow × DbState :=
  match processTax fs.failCat data.categories st.categories 0 with
  | (none, catRows) => (none, { st with categories := catRows })
  | (some cats, catRows) =>
    match processTax fs.failTag data.tags st.tags 0 with
    | (none, tagRows) => (none, { st with categories := catRows, tags := tagRows })
    | (some tags, tagRows) =>
      let st1 : DbState := { st with categories := catRows, tags := tagRows }
      if fs.failQuery then (none, st1)
      else
        match st1.articles.find? (fun a => a.original_url == data.original_url) with
        | some existing => (some existing, st1)
        | none =>
          if fs.failCreate then (none, st1)
          else
            let row : ArticleRow :=
              { id := st1.nextId, title := data.title, summary := data.summary,
                source_name := data.source_name, original_url := data.original_url,
                publication_date := data.publication_date, authors := data.authors,
                full_text_content := data.full_text_content,
                status := ArticleStatus.draft, catSlugs := [], tagSlugs := [] }
            let st2 : DbState :=
              { st1 with articles := st1.articles ++ [row], nextId := st1.nextId + 1 }
            if cats ≠ [] ∧ fs.failAddCats then (none, st2)
            else
              let row2 := { row with catSlugs := cats.map (fun c => c.slug) }
              let st3 : DbState :=
                { st2 with articles :=
                    st2.articles.map (fun a => if a.id == row.id then row2 else a) }
              if tags ≠ [] ∧ fs.failAddTags then (none, st3)
              else
                let row3 := { row2 with tagSlugs := tags.map (fun t => t.slug) }
                let st4 : DbState :=
                  { st3 with articles :=
                      st3.articles.map (fun a => if a.id == row2.id then row3 else a) }
                if fs.failSave then (none, st4)
                else (some row3, st4)

/-! ## Extraction strategies (cnbc_parser.py, roots_of_loneliness_parser.py) -/

/-- The generic title literal of `CnbcParser.extract_title`. -/
def cnbcTitleFallback : String := "CNBC Article about Loneliness"

/-- The generic title literal of `RootsOfLonelinessParser.extract_title`. -/
def rootsTitleFallback : String := "Loneliness Statistics"

/-- One class-attribute value matching `re.compile(r'title|headline', re.I)`
(bs4 runs the pattern's `search` over each class string). -/
def classMatchesTitle (e : Elem) : Bool :=
  e.classNames.any (fun c => strContains (lowerStr c) "title" || strContains (lowerStr c) "headline")

/-- Model of `CnbcParser.extract_title` (cnbc_parser.py lines 29-45): first `h1`, else
first `h1`/`h2` whose class matches `title|headline`, else the fixed literal.
A found element is used only when truthy (non-empty tag). -/
def CnbcParser.extract_title (d : Doc) : String :=
  match findTruthy d (fun e => e.tag == "h1") with
  | some e => pyStrip e.text
  | none =>
    match findTruthy d (fun e => (e.tag == "h1" || e.tag == "h2") && classMatchesTitle e) with
    | some e => pyStrip e.text
    | none => cnbcTitleFallback

/-- Model of `RootsOfLonelinessParser.extract_title` (lines 29-38): first `h1`, else the
fixed literal. -/
def RootsOfLonelinessParser.extract_title (d : Doc) : String :=
  match findTruthy d (fun e => e.tag == "h1") with
  | some e => pyStrip e.text
  | none => rootsTitleFallback

/-- Predicate for the explicit CNBC date element:
`find(['time','span','div'], attrs=\x7b'data-testid': 'publish-date'\x7d)`. -/
def cnbcPublishDateAttr (e : Elem) : Bool :=
  (e.tag == "time" || e.tag == "span" || e.tag == "div") &&
    (e.attrs.lookup "data-testid" == some "publish-date")

/-- Text containing `'published'` or `'updated'` (lowercased), the guard of the
alternative CNBC date search. -/
def hasPublishedOrUpdated (e : Elem) : Bool :=
  strContains (lowerStr e.text) "published" || strContains (lowerStr e.text) "updated"

/-- The elements scanned by CNBC's alternative date loop:
`find_all(['time','span','p'])`. -/
def cnbcDateLoopElems (d : Doc) : List Elem :=
  d.filter (fun e => e.tag == "time" || e.tag == "span" || e.tag == "p")

/-- The alternative date loop of `CnbcParser.extract_publication_date`: on the
first guarded element whose regex search yields a date string, return its
parse; a `strptime` raise is caught by the outer `except` and resolves to
today; if no element produces a match the loop falls through to today. -/
def cnbcDateLoop (today : Nat) (rx : String → Option String)
    (sp : String → Option Nat) : List Elem → Option Nat
  | [] => some today
  | e :: rest =>
    if hasPublishedOrUpdated e then
      match rx e.text with
      | some s =>
        match sp s with
        | some dt => some dt
        | none => some today
      | none => cnbcDateLoop today rx sp rest
    else cnbcDateLoop today rx sp rest

/-- Model of `CnbcParser.extract_publication_date` (lines 47-70).  `sp1` is
`strptime(_, '%b %d %Y')`, `rx` the `(Published|Updated): ...` group-2 search,
`sp2` is `strptime(_, '%b %d, %Y')`; `none` from a `strptime` oracle models the
raised `ValueError`, caught by the `except` that returns today. -/
def CnbcParser.extract_publication_date (d : Doc) (today : Nat)
    (sp1 : String → Option Nat) (rx : String → Option String)
    (sp2 : String → Option Nat) : Option Nat :=
  match findTruthy d cnbcPublishDateAttr with
  | some e =>
    match sp1 (pyStrip e.text) with
    | some dt => some dt
    | none => some today
  | none => cnbcDateLoop today rx sp2 (cnbcDateLoopElems d)

/-- Predicate for the Roots date element: a `p`/`div`/`span` whose text
contains `'updated'` (lowercased). -/
def rootsUpdatedPred (e : Elem) : Bool :=
  (e.tag == "p" || e.tag == "div" || e.tag == "span") && strContains (lowerStr e.text) "updated"

/-- Model of `RootsOfLonelinessParser.extract_publication_date` (lines 40-61).  `rx` is
the `Updated: (Month D, YYYY)` group-1 search, `sp` is
`strptime(_, '%B %d, %Y')`; a failed regex match falls through to today, a
`strptime` raise is caught and also resolves to today. -/
def RootsOfLonelinessParser.extract_publication_date (d : Doc) (today : Nat)
    (rx : String → Option String) (sp : String → Option Nat) : Option Nat :=
  match d.find? rootsUpdatedPred with
  | some e =>
    match rx e.text with
    | some s =>
      match sp s with
      | some dt => some dt
      | none => some today
    | none => some today
  | none => some today

/-- Sentence splitter `re.split(r'(?<=[.!?])\s+', content)`: a maximal
whitespace run directly preceded by `.`, `!` or `?` separates sentences and is
consumed.  The Boolean records being inside a separator run (the `\s+` already
matched), so the rest of the run is consumed without a fresh lookbehind. -/
def sentSplitAux : Bool → List Char → List Char → List (List Char)
  | _, [], acc => [acc.reverse]
  | skipping, c :: rest, acc =>
    if skipping && isPySpace c then
      sentSplitAux true rest acc
    else if isPySpace c &&
        (match acc with
         | p :: _ => p = '.' || p = '!' || p = '?'
         | [] => false) then
      acc.reverse :: sentSplitAux true rest []
    else
      sentSplitAux false rest (c :: acc)

/-- String-level sentence splitting used by `CnbcParser.create_summary`. -/
def splitSentences (s : String) : List String :=
  (sentSplitAux false s.toList []).map String.mk

/-- The topic-keyword test `re.search(r'lone|isolat|disconnect|social|Cigna|health', _, re.I)`. -/
def summaryKeywordMatch (s : String) : Bool :=
  let l := lowerStr s
  strContains l "lone" || strContains l "isolat" || strContains l "disconnect" ||
    strContains l "social" || strContains l "cigna" || strContains l "health"

/-- The sentence-selection loop of `CnbcParser.create_summary`: append each
keyword-matching sentence, stopping as soon as three are collected (the
length check runs each iteration, after the conditional append). -/
def selectRelevant (acc : List String) : List String → List String
  | [] => acc
  | s :: rest =>
    if summaryKeywordMatch s then
      if (acc ++ [s]).length ≥ 3 then acc ++ [s] else selectRelevant (acc ++ [s]) rest
    else
      if acc.length ≥ 3 then acc else selectRelevant acc rest

/-- The fixed lead-in of CNBC's statistics summary. -/
def cnbcSummaryLeadIn : String :=
  "Основные статистические данные из исследования Cigna о одиночестве:\n\n"

/-- The fixed generic fallback of `CnbcParser.create_summary`. -/
def cnbcSummaryFallbackText : String :=
  "Статья CNBC об исследовании Cigna о состоянии одиночества и его влиянии на здоровье."

/-- The fixed lead-in of Roots' statistics summary. -/
def rootsSummaryLeadIn : String :=
  "Ключевые статистические данные об одиночестве:\n\n"

/-- The fixed generic fallback of `RootsOfLonelinessParser.create_summary`. -/
def rootsSummaryFallbackText : String :=
  "Статистические данные об одиночестве и социальных связях."

/-- Bulleted block: `"\n".join(f"• \x7bstat\x7d" for stat in stats)`. -/
def bulletLines (stats : List String) : String :=
  String.intercalate "\n" (stats.map (fun stat => "• " ++ stat))

/-- Model of `CnbcParser.create_summary` (lines 135-169): statistics bullets (first 3)
with the lead-in; else up to three keyword-matching sentences among the first
five of the body; else the fixed fallback. -/
def CnbcParser.create_summary (statistics : List String) (content : String) : String :=
  if statistics ≠ [] then
    cnbcSummaryLeadIn ++ bulletLines (statistics.take 3)
  else if content ≠ "" then
    if selectRelevant [] ((splitSentences content).take 5) ≠ [] then
      String.intercalate " " (selectRelevant [] ((splitSentences content).take 5))
    else cnbcSummaryFallbackText
  else cnbcSummaryFallbackText

/-- Model of `RootsOfLonelinessParser.create_summary` (lines 103-113): statistics
bullets (first 5) with the lead-in, else the fixed fallback; the body text is
not an input at all. -/
def RootsOfLonelinessParser.create_summary (statistics : List String) : String :=
  if statistics = [] then rootsSummaryFallbackText
  else rootsSummaryLeadIn ++ bulletLines (statistics.take 5)

/-- Model of `re.search(r'gen ?z', content, re.I)`: `genz` or `gen z`, case-insensitive. -/
def genZMatch (content : String) : Bool :=
  strContains (lowerStr content) "genz" || strContains (lowerStr content) "gen z"

/-- Case-insensitive plain-substring `re.search` (pattern already lowercase). -/
def searchCI (pat content : String) : Bool :=
  strContains (lowerStr content) pat

/-- The tag block of `CnbcParser.parse` (lines 189-198): the fixed base tags,
then one conditional append per content pattern. -/
def CnbcParser.deriveTags (content : String) : List String :=
  let tags := ["loneliness", "health", "Cigna", "survey"]
  let tags := if genZMatch content then tags ++ ["Gen Z"] else tags
  let tags := if searchCI "millennials" content then tags ++ ["millennials"] else tags
  let tags := if searchCI "social media" content then tags ++ ["social media"] else tags
  let tags := if searchCI "mental health" content then tags ++ ["mental health"] else tags
  tags

/-! ## parser_manager.py -/

/-- Model of `ParserManager.get_parser_for_url` (lines 27-42): walk the registry in
registration order (Python dicts preserve insertion order) and instantiate the
first parser class whose domain string occurs in the URL; `none` when no
domain matches.  An entry pairs the domain substring with the parser-class
constructor applied to the URL. -/
def get_parser_for_url {α : Type} (parsers : List (String × (String → α))) (url : String) :
    Option α :=
  match parsers with
  | [] => none
  | (domain, parserClass) :: rest =>
    if strContains url domain then some (parserClass url)
    else get_parser_for_url rest url

/-- The two registered strategies of `ParserManager.__init__`. -/
inductive Strategy where
  | roots
  | cnbc
deriving DecidableEq, Repr

/-- The registry built by `ParserManager.__init__`, in registration order; an
instantiated parser is its strategy paired with the URL it was built from. -/
def defaultParsers : List (String × (String → Strategy × String)) :=
  [("rootsofloneliness.com", fun u => (Strategy.roots, u)),
   ("cnbc.com", fun u => (Strategy.cnbc, u))]

/-- Python-dict assignment `results[url] = v` on an association list: replace
the value at the first matching key, else append a new entry. -/
def dictSet {α : Type} : List (String × α) → String → α → List (String × α)
  | [], k, v => [(k, v)]
  | p :: rest, k, v =>
    if p.1 == k then (k, v) :: rest
    else p :: dictSet rest k v

/-- Model of `ParserManager.parse_multiple_urls` (lines 68-87).  The per-URL pipeline
`parse_url` (resolve, fetch, extract, commit) is passed in as an oracle: an
`Except` error is a raised exception (absorbed by the loop's `try`/`except`
into a `none` entry), an `ok` value is its normal `Optional[Article]` result. -/
def parse_multiple_urls {α : Type} (parseUrl : String → Except String (Option α))
    (urls : List String) : List (String × Option α) :=
  urls.foldl
    (fun results url =>
      match parseUrl url with
      | Except.ok article => dictSet results url article
      | Except.error _ => dictSet results url none)
    []

/-- First-occurrence deduplication, keeping input order: the key sequence a
Python dict ends up with after inserting each URL in turn. -/
def dedupNew (seen : List String) : List String → List String
  | [] => []
  | u :: rest =>
    if seen.contains u then dedupNew seen rest
    else u :: dedupNew (seen ++ [u]) rest

/-! ## Theorems -/

/-- C10: `published_at`, once set, is never changed or cleared by
`Article.save`; it is assigned the save time exactly when the status
transitions into PUBLISHED from a different original status while
`published_at` is unset, and re-saving (also after reverting the status away
from PUBLISHED) leaves the existing value unchanged. -/
theorem published_at_stable (a : ArticleModel) (t1 t2 : Nat) (s2 : ArticleStatus) (p : Nat) :
    (a.publishedAt = some p → (a.save t1).publishedAt = some p) ∧
    (a.publishedAt = none →
      (((a.save t1).publishedAt = some t1) ↔
        (a.status = ArticleStatus.published ∧ a.origStatus ≠ ArticleStatus.published)) ∧
      (¬(a.status = ArticleStatus.published ∧ a.origStatus ≠ ArticleStatus.published) →
        (a.save t1).publishedAt = none)) ∧
    ((a.save t1).publishedAt = some p →
      (({ a.save t1 with status := s2 }).save t2).publishedAt = some p) := by
  refine ⟨?_, ?_, ?_⟩
  · intro hp
    simp [ArticleModel.save, hp]
  · intro hn
    by_cases hpub : a.status = ArticleStatus.published ∧ a.origStatus ≠ ArticleStatus.published
    · constructor
      · simp [ArticleModel.save, hn, hpub]
      · intro hc
        exact absurd hpub hc
    · have hsave : (a.save t1).publishedAt = none := by
        simp only [ArticleModel.save]
        rw [if_neg (by tauto)]
        exact hn
      constructor
      · constructor
        · intro h
          rw [hsave] at h
          exact absurd h.symm (Option.some_ne_none t1)
        · intro h
          exact absurd h hpub
      · intro _
        exact hsave
  · intro hp
    simp only [ArticleModel.save] at hp ⊢
    rw [if_neg]
    · exact hp
    · intro hcond
      rw [hp] at hcond
      exact Option.some_ne_none p hcond.2

/-- C10 witness: a draft article published with `save` at time 5 gets
`published_at = 5`, and a later save after reverting the status to DRAFT keeps
`published_at = 5`. -/
theorem published_at_stable_witness :
    ((ArticleModel.mk ArticleStatus.published ArticleStatus.pending none).save 5).publishedAt =
      some 5 ∧
    ((({ (ArticleModel.mk ArticleStatus.published ArticleStatus.pending none).save 5 with
        status := ArticleStatus.draft }).save 9).publishedAt = some 5) := by
  have h := published_at_stable
    (ArticleModel.mk ArticleStatus.published ArticleStatus.pending none) 5 9 ArticleStatus.draft 5
  have h1 : ((ArticleModel.mk ArticleStatus.published ArticleStatus.pending none).save 5).publishedAt =
      some 5 := ((h.2.1 rfl).1).mpr (by exact ⟨rfl, by decide⟩)
  exact ⟨h1, h.2.2 h1⟩

/-- C9: taxonomy get-or-create is keyed on the slug alone: an existing row with
`slug = slugify n` is reused unchanged whatever its stored name, and two names
with the same slugified form resolve to one shared row, the second call
creating nothing. -/
theorem taxonomy_keyed_on_slug :
    (∀ (rows : List TaxRow) (n : String) (c : TaxRow),
      rows.find? (fun r => r.slug == slugify n) = some c →
      getOrCreate rows n = (c, rows)) ∧
    (∀ (rows : List TaxRow) (n1 n2 : String),
      slugify n1 = slugify n2 →
      rows.find? (fun r => r.slug == slugify n1) = none →
      getOrCreate (getOrCreate rows n1).2 n2 = ((getOrCreate rows n1).1, (getOrCreate rows n1).2) ∧
      (getOrCreate rows n1).1.name = n1 ∧
      (getOrCreate rows n1).2 = rows ++ [⟨n1, slugify n1⟩]) := by
  constructor
  · intro rows n c h
    unfold getOrCreate
    rw [h]
  · intro rows n1 n2 hslug hnone
    have h1 : getOrCreate rows n1 = (⟨n1, slugify n1⟩, rows ++ [⟨n1, slugify n1⟩]) := by
      unfold getOrCreate
      rw [hnone]
    rw [h1]
    refine ⟨?_, rfl, rfl⟩
    unfold getOrCreate
    rw [← hslug, List.find?_append, hnone]
    simp

/-- C9 witness: with an empty table, the names "Mental Health" and
"mental health" (equal slugs) resolve to one shared row named after the first,
and the second call changes nothing. -/
theorem taxonomy_keyed_on_slug_witness :
    getOrCreate (getOrCreate [] "Mental Health").2 "mental health" =
      ((getOrCreate [] "Mental Health").1, (getOrCreate [] "Mental Health").2) ∧
    (getOrCreate [] "Mental Health").1.name = "Mental Health" ∧
    (getOrCreate [] "Mental Health").2 = [⟨"Mental Health", slugify "Mental Health"⟩] := by
  exact taxonomy_keyed_on_slug.2 [] "Mental Health" "mental health" (by decide) (by decide)

/-- C8: `CnbcParser.parse` appends each content-derived tag to the fixed base
tags exactly once when its pattern occurs in the body (case-insensitively,
regardless of multiplicity), and not at all otherwise. -/
theorem cnbc_tag_accumulation (content : String) :
    (CnbcParser.deriveTags content).take 4 = ["loneliness", "health", "Cigna", "survey"] ∧
    (searchCI "social media" content = true →
      (CnbcParser.deriveTags content).count "social media" = 1) ∧
    (searchCI "social media" content = false →
      (CnbcParser.deriveTags content).count "social media" = 0) ∧
    (searchCI "mental health" content = true →
      (CnbcParser.deriveTags content).count "mental health" = 1) ∧
    (searchCI "mental health" content = false →
      (CnbcParser.deriveTags content).count "mental health" = 0) ∧
    (searchCI "millennials" content = true →
      (CnbcParser.deriveTags content).count "millennials" = 1) ∧
    (genZMatch content = true → (CnbcParser.deriveTags content).count "Gen Z" = 1) := by
  unfold CnbcParser.deriveTags
  cases h1 : genZMatch content <;>
    cases h2 : searchCI "millennials" content <;>
      cases h3 : searchCI "social media" content <;>
        cases h4 : searchCI "mental health" content <;>
          simp only [if_true, if_false, Bool.false_eq_true, Bool.true_eq_false] <;>
            refine ⟨by decide, ?_, ?_, ?_, ?_, ?_, ?_⟩ <;> intro h <;>
              first
                | decide
                | (exact absurd h (by simp))

/-- C8 witness: a body containing both "Social media" and "mental health"
yields both tags, each exactly once, after the fixed base tags. -/
theorem cnbc_tag_accumulation_witness :
    (CnbcParser.deriveTags "Social media harms mental health.").take 4 =
      ["loneliness", "health", "Cigna", "survey"] ∧
    (CnbcParser.deriveTags "Social media harms mental health.").count "social media" = 1 ∧
    (CnbcParser.deriveTags "Social media harms mental health.").count "mental health" = 1 := by
  have h := cnbc_tag_accumulation "Social media harms mental health."
  exact ⟨h.1, h.2.1 (by decide), h.2.2.2.1 (by decide)⟩

/-- A parseable document whose only heading is an `h1` carrying nothing but
whitespace text (one text child, so the tag is truthy). -/
def wsH1Doc : Doc := [⟨"h1", [], [], "   ", 1⟩]

/-- C4 counterexample: on a parseable document whose first `h1` has
whitespace-only text, both strategies' `extract_title` return the empty
string, so "never returns the empty string" fails as stated. -/
theorem extract_title_empty_cex :
    CnbcParser.extract_title wsH1Doc = "" ∧
    RootsOfLonelinessParser.extract_title wsH1Doc = "" := by
  decide

/-- C4 amended: `extract_title` never fails; it returns the fixed non-empty
generic literal when no truthy heading is found, and otherwise the stripped
text of the first matching heading — hence it is non-empty for every document
whose `h1`/`h2` headings all strip to non-empty text (a whitespace-only
heading, as in the counterexample, yields the empty string). -/
theorem extract_title_nonempty (d : Doc)
    (h : ∀ e ∈ d, (e.tag = "h1" ∨ e.tag = "h2") → pyStrip e.text ≠ "") :
    CnbcParser.extract_title d ≠ "" ∧ RootsOfLonelinessParser.extract_title d ≠ "" := by
  constructor
  · unfold CnbcParser.extract_title
    cases h1 : findTruthy d (fun e => e.tag == "h1") with
    | some e =>
      obtain ⟨hmem, hp⟩ := findTruthy_mem h1
      have htag : e.tag = "h1" := by simpa using hp
      exact h e hmem (Or.inl htag)
    | none =>
      cases h2 : findTruthy d (fun e => (e.tag == "h1" || e.tag == "h2") && classMatchesTitle e) with
      | some e =>
        obtain ⟨hmem, hp⟩ := findTruthy_mem h2
        have htag : e.tag = "h1" ∨ e.tag = "h2" := by
          simp only [Bool.and_eq_true, Bool.or_eq_true, beq_iff_eq] at hp
          exact hp.1
        exact h e hmem htag
      | none => decide
  · unfold RootsOfLonelinessParser.extract_title
    cases h1 : findTruthy d (fun e => e.tag == "h1") with
    | some e =>
      obtain ⟨hmem, hp⟩ := findTruthy_mem h1
      have htag : e.tag = "h1" := by simpa using hp
      exact h e hmem (Or.inl htag)
    | none => decide

/-- C4 witness: on the empty document (no headings at all) both strategies
return their non-empty generic literals. -/
theorem extract_title_nonempty_witness :
    CnbcParser.extract_title [] ≠ "" ∧ RootsOfLonelinessParser.extract_title [] ≠ "" :=
  extract_title_nonempty [] (fun e he _ => absurd he (List.not_mem_nil e))

theorem cnbcDateLoop_ne_none (today : Nat) (rx : String → Option String)
    (sp : String → Option Nat) (l : List Elem) :
    cnbcDateLoop today rx sp l ≠ none := by
  induction l with
  | nil => simp [cnbcDateLoop]
  | cons e rest ih =>
    simp only [cnbcDateLoop]
    cases hg : hasPublishedOrUpdated e with
    | false => simpa [hg] using ih
    | true =>
      cases hrx : rx e.text with
      | none => simpa [hg, hrx] using ih
      | some s =>
        cases hsp : sp s <;> simp [hg, hrx, hsp]

theorem cnbcDateLoop_no_marker (today : Nat) (rx : String → Option String)
    (sp : String → Option Nat) (l : List Elem)
    (h : ∀ e ∈ l, hasPublishedOrUpdated e = false) :
    cnbcDateLoop today rx sp l = some today := by
  induction l with
  | nil => simp [cnbcDateLoop]
  | cons e rest ih =>
    simp only [cnbcDateLoop]
    rw [if_neg (by simp [h e (by simp)])]
    exact ih (fun x hx => h x (List.mem_cons_of_mem e hx))

/-- C7: `extract_publication_date` never yields null for a fetched document —
whatever the document, today's date and the regex/`strptime` oracles (also the
everywhere-failing ones modelling raised parse errors), the result is `some`;
and on a document with no date markers at all, both strategies return exactly
the current date. -/
theorem extract_publication_date_fallback (d : Doc) (today : Nat)
    (sp1 : String → Option Nat) (rx : String → Option String) (sp2 : String → Option Nat)
    (rxR : String → Option String) (spR : String → Option Nat) :
    (CnbcParser.extract_publication_date d today sp1 rx sp2 ≠ none ∧
     RootsOfLonelinessParser.extract_publication_date d today rxR spR ≠ none) ∧
    ((∀ e ∈ d, cnbcPublishDateAttr e = false ∧ hasPublishedOrUpdated e = false) →
      CnbcParser.extract_publication_date d today sp1 rx sp2 = some today) ∧
    ((∀ e ∈ d, rootsUpdatedPred e = false) →
      RootsOfLonelinessParser.extract_publication_date d today rxR spR = some today) := by
  refine ⟨⟨?_, ?_⟩, ?_, ?_⟩
  · unfold CnbcParser.extract_publication_date
    cases h1 : findTruthy d cnbcPublishDateAttr with
    | some e =>
      cases hsp : sp1 (pyStrip e.text) <;> simp [hsp]
    | none => exact cnbcDateLoop_ne_none today rx sp2 (cnbcDateLoopElems d)
  · unfold RootsOfLonelinessParser.extract_publication_date
    cases h1 : d.find? rootsUpdatedPred with
    | some e =>
      cases hrx : rxR e.text with
      | some s => cases hsp : spR s <;> simp [hrx, hsp]
      | none => simp [hrx]
    | none => simp
  · intro h
    unfold CnbcParser.extract_publication_date
    have hfind : d.find? cnbcPublishDateAttr = none :=
      List.find?_eq_none.mpr (fun e he => by simp [(h e he).1])
    have hft : findTruthy d cnbcPublishDateAttr = none := by
      unfold findTruthy
      rw [hfind]
    rw [hft]
    exact cnbcDateLoop_no_marker today rx sp2 (cnbcDateLoopElems d)
      (fun e he => (h e (List.mem_filter.mp he).1).2)
  · intro h
    unfold RootsOfLonelinessParser.extract_publication_date
    have hfind : d.find? rootsUpdatedPred = none :=
      List.find?_eq_none.mpr (fun e he => by simp [h e he])
    rw [hfind]

/-- C7 witness: a document with an unlabeled paragraph and no date markers
resolves to the current date under both strategies, even with oracles that
always fail (every `strptime` raising). -/
theorem extract_publication_date_fallback_witness :
    CnbcParser.extract_publication_date [⟨"p", [], [], "Plain body text.", 1⟩] 77
      (fun _ => none) (fun _ => none) (fun _ => none) = some 77 ∧
    RootsOfLonelinessParser.extract_publication_date [⟨"p", [], [], "Plain body text.", 1⟩] 77
      (fun _ => none) (fun _ => none) = some 77 := by
  have h := extract_publication_date_fallback [⟨"p", [], [], "Plain body text.", 1⟩] 77
    (fun _ => none) (fun _ => none) (fun _ => none) (fun _ => none) (fun _ => none)
  exact ⟨h.2.1 (by decide), h.2.2 (by decide)⟩

/-- C5: the dispatcher resolves a URL to the first registered strategy whose
domain substring occurs anywhere in the URL, in registration order (first
match wins, not most specific), and to `none` exactly when no registered
domain occurs in the URL. -/
theorem get_parser_first_match {α : Type} (parsers : List (String × (String → α))) (url : String) :
    (get_parser_for_url parsers url = none ↔ ∀ p ∈ parsers, strContains url p.1 = false) ∧
    (∀ s : α, get_parser_for_url parsers url = some s ↔
      ∃ pre d pc post, parsers = pre ++ (d, pc) :: post ∧ strContains url d = true ∧
        (∀ q ∈ pre, strContains url q.1 = false) ∧ s = pc url) := by
  induction parsers with
  | nil =>
    constructor
    · simp [get_parser_for_url]
    · intro s
      constructor
      · intro h
        simp [get_parser_for_url] at h
      · rintro ⟨pre, d, pc, post, habs, -⟩
        exact absurd habs.symm (List.append_ne_nil_of_right_ne_nil pre (by simp))
  | cons hd rest ih =>
    obtain ⟨domain, pc0⟩ := hd
    constructor
    · constructor
      · intro h
        simp only [get_parser_for_url] at h
        by_cases hm : strContains url domain = true
        · rw [if_pos hm] at h
          exact absurd h (by simp)
        · rw [if_neg hm] at h
          intro p hp
          rcases List.mem_cons.mp hp with rfl | hp2
          · simpa using hm
          · exact (ih.1.mp h) p hp2
      · intro hall
        simp only [get_parser_for_url]
        have hd0 : strContains url domain = false := hall (domain, pc0) (by simp)
        rw [if_neg (by simp [hd0])]
        exact ih.1.mpr (fun p hp => hall p (List.mem_cons_of_mem _ hp))
    · intro s
      constructor
      · intro h
        simp only [get_parser_for_url] at h
        by_cases hm : strContains url domain = true
        · rw [if_pos hm] at h
          exact ⟨[], domain, pc0, rest, rfl, hm, by simp, (Option.some_inj.mp h).symm⟩
        · rw [if_neg hm] at h
          obtain ⟨pre, d, pc, post, heq, hc, hpre, hs⟩ := (ih.2 s).mp h
          refine ⟨(domain, pc0) :: pre, d, pc, post, by rw [heq]; rfl, hc, ?_, hs⟩
          intro q hq
          rcases List.mem_cons.mp hq with rfl | hq2
          · simpa using hm
          · exact hpre q hq2
      · rintro ⟨pre, d, pc, post, heq, hc, hpre, hs⟩
        cases pre with
        | nil =>
          simp only [List.nil_append, List.cons.injEq, Prod.mk.injEq] at heq
          obtain ⟨⟨hd1, hd2⟩, -⟩ := heq
          simp only [get_parser_for_url]
          rw [if_pos (by rw [hd1]; exact hc)]
          rw [hs, hd2]
        | cons q pre2 =>
          simp only [List.cons_append, List.cons.injEq] at heq
          obtain ⟨hq1, hrest⟩ := heq
          have hq0 : strContains url domain = false := by
            have := hpre q (by simp)
            rw [← hq1] at this
            exact this
          simp only [get_parser_for_url]
          rw [if_neg (by simp [hq0])]
          exact (ih.2 s).mpr ⟨pre2, d, pc, post, hrest, hc, fun r hr => hpre r (by simp [hr]), hs⟩

/-- The registry of the spec's dispatcher-precedence example. -/
def exampleRegistry : List (String × (String → String)) :=
  [("a.com", fun _ => "StratA"), ("a.com.evil.com", fun _ => "StratB")]

/-- C5 witness: on `"http://a.com.evil.com/x"` the example registry resolves to
StratA (the first, less specific, registered match), and a URL matching no
registered domain resolves to `none`. -/
theorem get_parser_first_match_witness :
    get_parser_for_url exampleRegistry "http://a.com.evil.com/x" = some "StratA" ∧
    get_parser_for_url exampleRegistry "http://other.org/" = none := by
  constructor
  · exact ((get_parser_first_match exampleRegistry "http://a.com.evil.com/x").2 "StratA").mpr
      ⟨[], "a.com", fun _ => "StratA", [("a.com.evil.com", fun _ => "StratB")],
        rfl, by decide, by simp, rfl⟩
  · exact (get_parser_first_match exampleRegistry "http://other.org/").1.mpr (by decide)

theorem selectRelevant_eq (l : List String) : ∀ acc : List String, acc.length < 3 →
    selectRelevant acc l = acc ++ (l.filter summaryKeywordMatch).take (3 - acc.length) := by
  induction l with
  | nil => intro acc _; simp [selectRelevant]
  | cons s rest ih =>
    intro acc h
    simp only [selectRelevant, List.filter_cons]
    cases hk : summaryKeywordMatch s with
    | false =>
      rw [if_neg (by simp [hk]), if_neg (by omega)]
      exact ih acc h
    | true =>
      rw [if_pos rfl]
      by_cases hlen : (acc ++ [s]).length ≥ 3
      · rw [if_pos hlen]
        simp only [List.length_append, List.length_singleton] at hlen
        have h2 : acc.length = 2 := by omega
        have h3 : 3 - acc.length = 1 := by omega
        rw [if_pos rfl, h3, List.take_succ_cons, List.take_zero]
      · rw [if_neg hlen]
        simp only [List.length_append, List.length_singleton] at hlen
        have hlt : (acc ++ [s]).length < 3 := by simp; omega
        rw [ih (acc ++ [s]) hlt]
        have h4 : 3 - acc.length = (3 - (acc ++ [s]).length) + 1 := by simp; omega
        rw [if_pos rfl, h4, List.take_succ_cons]
        simp

/-- C3 counterexample: the claim's tier-two clause fails for the Roots
strategy.  With empty statistics and the spec's non-empty body — whose first
five sentences do contain keyword-matching ones — the Roots `create_summary`
(which never consults the body) returns its fixed generic fallback instead of
the selected sentences. -/
theorem roots_summary_tier_cex :
    "Loneliness is rising. Cigna study shows isolation increasing. Unrelated sentence." ≠ "" ∧
    (((splitSentences
        "Loneliness is rising. Cigna study shows isolation increasing. Unrelated sentence.").take
          5).filter summaryKeywordMatch).take 3 =
      ["Loneliness is rising.", "Cigna study shows isolation increasing."] ∧
    RootsOfLonelinessParser.create_summary [] ≠
      String.intercalate " "
        ["Loneliness is rising.", "Cigna study shows isolation increasing."] := by
  exact ⟨by decide, by decide, by decide⟩

/-- C3 amended: only the CNBC strategy has the full three-tier preference —
statistics bullets (first three) with its lead-in; else up to three
keyword-matching sentences among the first five of the body (those selected
are exactly the keyword-matching ones, the generic fallback being used when no
sentence matches); else the generic fallback.  The Roots strategy has two
tiers only: statistics bullets (first five) with its lead-in, else its generic
fallback, never consulting the body. -/
theorem create_summary_tiering (stats : List String) (content : String) :
    (stats ≠ [] →
      CnbcParser.create_summary stats content = cnbcSummaryLeadIn ++ bulletLines (stats.take 3)) ∧
    (stats = [] → content ≠ "" →
      ((((splitSentences content).take 5).filter summaryKeywordMatch).take 3 ≠ [] →
        CnbcParser.create_summary stats content =
          String.intercalate " "
            ((((splitSentences content).take 5).filter summaryKeywordMatch).take 3)) ∧
      (((splitSentences content).take 5).filter summaryKeywordMatch = [] →
        CnbcParser.create_summary stats content = cnbcSummaryFallbackText)) ∧
    (stats = [] → content = "" →
      CnbcParser.create_summary stats content = cnbcSummaryFallbackText) ∧
    (∀ s ∈ (((splitSentences content).take 5).filter summaryKeywordMatch).take 3,
      summaryKeywordMatch s = true ∧ s ∈ (splitSentences content).take 5) ∧
    (RootsOfLonelinessParser.create_summary stats =
      if stats = [] then rootsSummaryFallbackText
      else rootsSummaryLeadIn ++ bulletLines (stats.take 5)) := by
  have hsel : selectRelevant [] ((splitSentences content).take 5) =
      (((splitSentences content).take 5).filter summaryKeywordMatch).take 3 := by
    rw [selectRelevant_eq _ [] (by simp)]
    simp
  refine ⟨?_, ?_, ?_, ?_, rfl⟩
  · intro h
    unfold CnbcParser.create_summary
    rw [if_pos h]
  · intro h0 hc
    subst h0
    constructor
    · intro hne
      unfold CnbcParser.create_summary
      rw [if_neg (by simp), if_pos hc, hsel, if_pos hne]
    · intro hemp
      unfold CnbcParser.create_summary
      rw [if_neg (by simp), if_pos hc, hsel, hemp]
      simp
  · intro h0 hc
    subst h0
    unfold CnbcParser.create_summary
    rw [if_neg (by simp), if_neg (by simp [hc])]
  · intro s hs
    have h5 := List.mem_of_mem_take hs
    exact ⟨(List.mem_filter.mp h5).2, (List.mem_filter.mp h5).1⟩

/-- C3 witness: the statistics tier on the spec's example statistic yields the
lead-in plus exactly that bullet; the keyword tier on the spec's example body
yields exactly the two keyword-matching sentences of its first five. -/
theorem create_summary_tiering_witness :
    CnbcParser.create_summary ["40% report loneliness"] "" =
      cnbcSummaryLeadIn ++ "• 40% report loneliness" ∧
    CnbcParser.create_summary []
        "Loneliness is rising. Cigna study shows isolation increasing. Unrelated sentence." =
      "Loneliness is rising. Cigna study shows isolation increasing." := by
  constructor
  · have h := (create_summary_tiering ["40% report loneliness"] "").1 (by simp)
    rw [h]
    decide
  · have h := (((create_summary_tiering []
      "Loneliness is rising. Cigna study shows isolation increasing. Unrelated sentence.").2.1
        rfl (by decide)).1 (by decide))
    rw [h]
    decide

/-- The result the batch loop stores for one URL: the pipeline's value on
normal return, `none` when the pipeline raised. -/
def pipelineOutcome {α : Type} (parseUrl : String → Except String (Option α))
    (u : String) : Option α :=
  match parseUrl u with
  | Except.ok a => a
  | Except.error _ => none

theorem dictSet_lookup_self {α : Type} (m : List (String × α)) (k : String) (v : α) :
    (dictSet m k v).lookup k = some v := by
  induction m with
  | nil => simp [dictSet, List.lookup]
  | cons p rest ih =>
    by_cases h : p.1 = k
    · simp [dictSet, h, List.lookup]
    · simp only [dictSet]
      rw [if_neg (by simpa using h)]
      have hb : (k == p.1) = false := by simp [Ne.symm h]
      simp only [List.lookup, hb]
      exact ih

theorem dictSet_lookup_other {α : Type} (m : List (String × α)) (k k2 : String) (v : α)
    (h : k2 ≠ k) : (dictSet m k v).lookup k2 = m.lookup k2 := by
  induction m with
  | nil =>
    have hb : (k2 == k) = false := by simp [h]
    simp [dictSet, List.lookup, hb]
  | cons p rest ih =>
    by_cases hp : p.1 = k
    · subst hp
      have hb : (k2 == p.1) = false := by simp [h]
      simp [dictSet, List.lookup, hb]
    · simp only [dictSet]
      rw [if_neg (by simpa using hp)]
      by_cases h2 : k2 = p.1
      · have hb : (k2 == p.1) = true := by simp [h2]
        simp [List.lookup, hb]
      · have hb : (k2 == p.1) = false := by simp [h2]
        simp only [List.lookup, hb]
        exact ih

theorem dictSet_keys_mem {α : Type} (m : List (String × α)) (k : String) (v : α)
    (h : k ∈ m.map Prod.fst) : (dictSet m k v).map Prod.fst = m.map Prod.fst := by
  induction m with
  | nil => simp at h
  | cons p rest ih =>
    by_cases hp : p.1 = k
    · simp [dictSet, hp]
    · simp only [dictSet]
      rw [if_neg (by simpa using hp)]
      simp only [List.map_cons]
      have hsplit : k = p.1 ∨ k ∈ rest.map Prod.fst := by simpa using h
      have h2 : k ∈ rest.map Prod.fst := by
        rcases hsplit with h1 | h1
        · exact absurd h1.symm hp
        · exact h1
      rw [ih h2]

theorem dictSet_keys_not_mem {α : Type} (m : List (String × α)) (k : String) (v : α)
    (h : k ∉ m.map Prod.fst) : (dictSet m k v).map Prod.fst = m.map Prod.fst ++ [k] := by
  induction m with
  | nil => simp [dictSet]
  | cons p rest ih =>
    have hp : p.1 ≠ k := by
      intro he
      exact h (by simp [he])
    simp only [dictSet]
    rw [if_neg (by simpa using hp)]
    simp only [List.map_cons, List.cons_append]
    congr 1
    exact ih (fun hmem => h (by simp [hmem]))

theorem parse_loop_body {α : Type} (parseUrl : String → Except String (Option α))
    (acc : List (String × Option α)) (url : String) :
    (match parseUrl url with
     | Except.ok article => dictSet acc url article
     | Except.error _ => dictSet acc url none) =
      dictSet acc url (pipelineOutcome parseUrl url) := by
  unfold pipelineOutcome
  cases parseUrl url <;> rfl

theorem parse_loop_lookup_not_mem {α : Type} (parseUrl : String → Except String (Option α))
    (urls : List String) : ∀ (acc : List (String × Option α)) (u : String), u ∉ urls →
    (urls.foldl
      (fun results url =>
        match parseUrl url with
        | Except.ok article => dictSet results url article
        | Except.error _ => dictSet results url none) acc).lookup u = acc.lookup u := by
  induction urls with
  | nil => intro acc u _; rfl
  | cons v rest ih =>
    intro acc u hu
    have hne : u ≠ v := fun he => hu (by simp [he])
    have hrest : u ∉ rest := fun hm => hu (List.mem_cons_of_mem v hm)
    simp only [List.foldl_cons]
    rw [ih _ u hrest, parse_loop_body, dictSet_lookup_other _ _ _ _ hne]

theorem parse_loop_lookup_mem {α : Type} (parseUrl : String → Except String (Option α))
    (urls : List String) : ∀ (acc : List (String × Option α)) (u : String), u ∈ urls →
    (urls.foldl
      (fun results url =>
        match parseUrl url with
        | Except.ok article => dictSet results url article
        | Except.error _ => dictSet results url none) acc).lookup u =
      some (pipelineOutcome parseUrl u) := by
  induction urls with
  | nil => intro acc u hu; simp at hu
  | cons v rest ih =>
    intro acc u hu
    by_cases hr : u ∈ rest
    · simpa only [List.foldl_cons] using ih _ u hr
    · have huv : u = v := by
        rcases List.mem_cons.mp hu with h | h
        · exact h
        · exact absurd h hr
      subst huv
      simp only [List.foldl_cons]
      rw [parse_loop_lookup_not_mem parseUrl rest _ u hr, parse_loop_body,
        dictSet_lookup_self]

theorem parse_loop_keys {α : Type} (parseUrl : String → Except String (Option α))
    (urls : List String) : ∀ acc : List (String × Option α),
    (urls.foldl
      (fun results url =>
        match parseUrl url with
        | Except.ok article => dictSet results url article
        | Except.error _ => dictSet results url none) acc).map Prod.fst =
      acc.map Prod.fst ++ dedupNew (acc.map Prod.fst) urls := by
  induction urls with
  | nil => intro acc; simp [dedupNew]
  | cons v rest ih =>
    intro acc
    simp only [List.foldl_cons]
    rw [ih, parse_loop_body]
    by_cases hv : v ∈ acc.map Prod.fst
    · rw [dictSet_keys_mem _ _ _ hv]
      simp only [dedupNew]
      rw [if_pos (by simpa [List.contains] using hv)]
    · rw [dictSet_keys_not_mem _ _ _ hv]
      simp only [dedupNew]
      rw [if_neg (by simpa [List.contains] using hv)]
      simp

/-- C6: the batch operation isolates per-URL failures — its result keys are
exactly the input URLs in input order (first occurrence for duplicates), and
the entry of every input URL is determined by that URL's own pipeline outcome:
`some none` when its pipeline raised or returned `None`, its article
otherwise.  In particular a raise for one URL never removes or changes the
entries of the others and is never propagated to the caller. -/
theorem parse_multiple_urls_isolation {α : Type}
    (parseUrl : String → Except String (Option α)) (urls : List String) :
    ((parse_multiple_urls parseUrl urls).map Prod.fst = dedupNew [] urls) ∧
    (∀ u ∈ urls, (parse_multiple_urls parseUrl urls).lookup u =
      some (pipelineOutcome parseUrl u)) :=
  ⟨by simpa using parse_loop_keys parseUrl urls [],
   fun u hu => parse_loop_lookup_mem parseUrl urls [] u hu⟩

/-- The spec's batch-isolation example pipeline: the middle URL raises a fetch
error, every other URL commits an article. -/
def examplePipeline : String → Except String (Option String) :=
  fun u => if u == "malformed" then Except.error "FetchError" else Except.ok (some ("article:" ++ u))

/-- C6 witness: on `[valid1, malformed, valid2]` where `malformed` raises, the
result has entries for all three keys in order, `malformed` maps to `none`,
and `valid2` was still processed. -/
theorem parse_multiple_urls_isolation_witness :
    (parse_multiple_urls examplePipeline ["valid1", "malformed", "valid2"]).map Prod.fst =
      ["valid1", "malformed", "valid2"] ∧
    (parse_multiple_urls examplePipeline ["valid1", "malformed", "valid2"]).lookup "malformed" =
      some none ∧
    (parse_multiple_urls examplePipeline ["valid1", "malformed", "valid2"]).lookup "valid2" =
      some (some "article:valid2") := by
  have h := parse_multiple_urls_isolation examplePipeline ["valid1", "malformed", "valid2"]
  refine ⟨by rw [h.1]; decide, ?_, ?_⟩
  · rw [h.2 "malformed" (by simp)]
    decide
  · rw [h.2 "valid2" (by simp)]
    decide

theorem processTax_ok (fail : Nat → Bool) (hfail : ∀ j, fail j = false) :
    ∀ (ns : List String) (rows : List TaxRow) (i : Nat),
    ∃ acc rows2, processTax fail ns rows i = (some acc, rows2) ∧
      acc.length = ns.length := by
  intro ns
  induction ns with
  | nil => intro rows i; exact ⟨[], rows, rfl, rfl⟩
  | cons n ns ih =>
    intro rows i
    obtain ⟨acc, rows2, heq, hlen⟩ := ih (getOrCreate rows n).2 (i + 1)
    refine ⟨(getOrCreate rows n).1 :: acc, rows2, ?_, by simp [hlen]⟩
    simp only [processTax]
    rw [if_neg (by simp [hfail i]), heq]

/-- C1: committing a record whose `original_url` already belongs to a
persisted article returns exactly that stored row and leaves the article table
unchanged — no duplicate row, no update of the stored fields. -/
theorem save_to_db_idempotent (data : ParsedData) (st : DbState) (a : ArticleRow)
    (h : st.articles.find? (fun r => r.original_url == data.original_url) = some a) :
    (save_to_db data noFail st).1 = some a ∧
    (save_to_db data noFail st).2.articles = st.articles := by
  obtain ⟨cats, catRows, hc, -⟩ :=
    processTax_ok noFail.failCat (fun _ => rfl) data.categories st.categories 0
  obtain ⟨tags, tagRows, ht, -⟩ :=
    processTax_ok noFail.failTag (fun _ => rfl) data.tags st.tags 0
  have hmain : save_to_db data noFail st =
      (some a, { st with categories := catRows, tags := tagRows }) := by
    unfold save_to_db
    rw [hc, ht]
    simp [noFail, h]
  rw [hmain]
  exact ⟨rfl, rfl⟩

/-- The article row stored before the repeated commit of the C1 witness. -/
def storedArticle : ArticleRow :=
  { id := 0, title := "T", summary := "S", source_name := "CNBC",
    original_url := "https://cnbc.com/a", publication_date := none, authors := "A",
    full_text_content := "", status := ArticleStatus.draft,
    catSlugs := ["health-research"], tagSlugs := ["loneliness"] }

/-- A re-submission of the URL already stored as `storedArticle`, with changed
field values. -/
def resubmitData : ParsedData :=
  { title := "T2", summary := "S2", source_name := "CNBC",
    original_url := "https://cnbc.com/a", publication_date := none, authors := "A2",
    full_text_content := "body", categories := ["Health Research"], tags := ["loneliness"] }

/-- The database state holding `storedArticle` and its taxonomy rows. -/
def storedDb : DbState :=
  ⟨[⟨"Health Research", "health-research"⟩], [⟨"loneliness", "loneliness"⟩], [storedArticle], 1⟩

/-- C1 witness: re-submitting the stored URL (with different extracted fields)
returns the stored row itself and leaves the article table as it was. -/
theorem save_to_db_idempotent_witness :
    (save_to_db resubmitData noFail storedDb).1 = some storedArticle ∧
    (save_to_db resubmitData noFail storedDb).2.articles = [storedArticle] :=
  save_to_db_idempotent resubmitData storedDb storedArticle (by decide)

/-- The draft article row built by `Article.objects.create` inside
`save_to_db` before any taxonomy attachment. -/
def createdRow (data : ParsedData) (st : DbState) : ArticleRow :=
  { id := st.nextId, title := data.title, summary := data.summary,
    source_name := data.source_name, original_url := data.original_url,
    publication_date := data.publication_date, authors := data.authors,
    full_text_content := data.full_text_content, status := ArticleStatus.draft,
    catSlugs := [], tagSlugs := [] }

theorem row_not_stored {l : List ArticleRow} {u : String}
    (h : l.find? (fun r => r.original_url == u) = none) {row : ArticleRow}
    (hu : row.original_url = u) : row ∉ l := by
  intro hmem
  have hfalse := List.find?_eq_none.mp h row hmem
  simp [hu] at hfalse

/-- C2 amended: a persistence failure at any step still aborts the commit with
an error result (`None`), but the steps are not inside a transactional
boundary — the repository never opens one — so the work committed before the
failing step persists under autocommit.  Case by case over the first failing
database call: a raise in the category loop, the tag loop, the dedup query or
the create returns `None` and leaves the article table unchanged (only
taxonomy rows already created persist); a raise while attaching categories
leaves the created row behind with no attachments; a raise while attaching
tags leaves it behind with its categories attached but no tags; a raise at the
final save leaves the fully attached row behind — in every case the caller is
told the commit failed. -/
theorem save_to_db_no_transaction (data : ParsedData) (st : DbState) (fs : FailureSchedule) :
    (∀ catRows, processTax fs.failCat data.categories st.categories 0 = (none, catRows) →
      save_to_db data fs st = (none, { st with categories := catRows })) ∧
    (∀ cats catRows tagRows,
      processTax fs.failCat data.categories st.categories 0 = (some cats, catRows) →
      processTax fs.failTag data.tags st.tags 0 = (none, tagRows) →
      save_to_db data fs st = (none, { st with categories := catRows, tags := tagRows })) ∧
    (∀ cats catRows tags tagRows,
      processTax fs.failCat data.categories st.categories 0 = (some cats, catRows) →
      processTax fs.failTag data.tags st.tags 0 = (some tags, tagRows) →
      fs.failQuery = true →
      save_to_db data fs st = (none, { st with categories := catRows, tags := tagRows })) ∧
    (∀ cats catRows tags tagRows,
      processTax fs.failCat data.categories st.categories 0 = (some cats, catRows) →
      processTax fs.failTag data.tags st.tags 0 = (some tags, tagRows) →
      fs.failQuery = false →
      st.articles.find? (fun r => r.original_url == data.original_url) = none →
      fs.failCreate = true →
      save_to_db data fs st = (none, { st with categories := catRows, tags := tagRows })) ∧
    (∀ cats catRows tags tagRows,
      processTax fs.failCat data.categories st.categories 0 = (some cats, catRows) →
      processTax fs.failTag data.tags st.tags 0 = (some tags, tagRows) →
      fs.failQuery = false →
      st.articles.find? (fun r => r.original_url == data.original_url) = none →
      fs.failCreate = false →
      cats ≠ [] → fs.failAddCats = true →
      (save_to_db data fs st).1 = none ∧
      ∃ row ∈ (save_to_db data fs st).2.articles,
        row.original_url = data.original_url ∧ row.catSlugs = [] ∧ row.tagSlugs = [] ∧
        row ∉ st.articles) ∧
    (∀ cats catRows tags tagRows,
      processTax fs.failCat data.categories st.categories 0 = (some cats, catRows) →
      processTax fs.failTag data.tags st.tags 0 = (some tags, tagRows) →
      fs.failQuery = false →
      st.articles.find? (fun r => r.original_url == data.original_url) = none →
      fs.failCreate = false →
      (cats = [] ∨ fs.failAddCats = false) → tags ≠ [] → fs.failAddTags = true →
      (save_to_db data fs st).1 = none ∧
      ∃ row ∈ (save_to_db data fs st).2.articles,
        row.original_url = data.original_url ∧
        row.catSlugs = cats.map (fun c => c.slug) ∧ row.tagSlugs = [] ∧
        row ∉ st.articles) ∧
    (∀ cats catRows tags tagRows,
      processTax fs.failCat data.categories st.categories 0 = (some cats, catRows) →
      processTax fs.failTag data.tags st.tags 0 = (some tags, tagRows) →
      fs.failQuery = false →
      st.articles.find? (fun r => r.original_url == data.original_url) = none →
      fs.failCreate = false →
      (cats = [] ∨ fs.failAddCats = false) → (tags = [] ∨ fs.failAddTags = false) →
      fs.failSave = true →
      (save_to_db data fs st).1 = none ∧
      ∃ row ∈ (save_to_db data fs st).2.articles,
        row.original_url = data.original_url ∧
        row.catSlugs = cats.map (fun c => c.slug) ∧
        row.tagSlugs = tags.map (fun t => t.slug) ∧
        row ∉ st.articles) := by
  refine ⟨?_, ?_, ?_, ?_, ?_, ?_, ?_⟩
  · intro catRows hA
    unfold save_to_db
    rw [hA]
  · intro cats catRows tagRows hA hB
    unfold save_to_db
    rw [hA, hB]
  · intro cats catRows tags tagRows hA hB hq
    unfold save_to_db
    rw [hA, hB]
    simp [hq]
  · intro cats catRows tags tagRows hA hB hq hfind hcr
    unfold save_to_db
    rw [hA, hB]
    simp [hq, hfind, hcr]
  · intro cats catRows tags tagRows hA hB hq hfind hcr hcne hac
    have hmain : save_to_db data fs st =
        (none,
         { st with
             categories := catRows, tags := tagRows,
             articles := st.articles ++ [createdRow data st],
             nextId := st.nextId + 1 }) := by
      unfold save_to_db
      rw [hA, hB]
      simp [hq, hcr, hfind, hac, hcne, createdRow]
    rw [hmain]
    exact ⟨rfl, ⟨createdRow data st, by simp, rfl, rfl, rfl, row_not_stored hfind rfl⟩⟩
  · intro cats catRows tags tagRows hA hB hq hfind hcr hnoAC htne hat
    have hnotAC : ¬(cats ≠ [] ∧ fs.failAddCats = true) := by
      rcases hnoAC with h | h
      · exact fun hc => hc.1 h
      · intro hc
        rw [h] at hc
        exact Bool.false_ne_true hc.2
    have hmain : save_to_db data fs st =
        (none,
         { st with
             categories := catRows, tags := tagRows,
             articles := (st.articles ++ [createdRow data st]).map
               (fun a => if a.id == (createdRow data st).id then
                 { createdRow data st with catSlugs := cats.map (fun c => c.slug) } else a),
             nextId := st.nextId + 1 }) := by
      unfold save_to_db
      rw [hA, hB]
      simp [hq, hcr, hfind, hnotAC, htne, hat, createdRow]
    rw [hmain]
    refine ⟨rfl, ?_⟩
    refine ⟨{ createdRow data st with catSlugs := cats.map (fun c => c.slug) },
      List.mem_map.mpr ⟨createdRow data st, by simp, by simp⟩,
      rfl, rfl, rfl, row_not_stored hfind rfl⟩
  · intro cats catRows tags tagRows hA hB hq hfind hcr hnoAC hnoAT hsave
    have hnotAC : ¬(cats ≠ [] ∧ fs.failAddCats = true) := by
      rcases hnoAC with h | h
      · exact fun hc => hc.1 h
      · intro hc
        rw [h] at hc
        exact Bool.false_ne_true hc.2
    have hnotAT : ¬(tags ≠ [] ∧ fs.failAddTags = true) := by
      rcases hnoAT with h | h
      · exact fun hc => hc.1 h
      · intro hc
        rw [h] at hc
        exact Bool.false_ne_true hc.2
    have hmain : save_to_db data fs st =
        (none,
         { st with
             categories := catRows, tags := tagRows,
             articles := ((st.articles ++ [createdRow data st]).map
               (fun a => if a.id == (createdRow data st).id then
                 { createdRow data st with catSlugs := cats.map (fun c => c.slug) } else a)).map
               (fun a => if a.id == (createdRow data st).id then
                 { createdRow data st with
                     catSlugs := cats.map (fun c => c.slug),
                     tagSlugs := tags.map (fun t => t.slug) } else a),
             nextId := st.nextId + 1 }) := by
      unfold save_to_db
      rw [hA, hB]
      simp [hq, hcr, hfind, hnotAC, hnotAT, hsave, createdRow]
    rw [hmain]
    refine ⟨rfl, ?_⟩
    refine ⟨{ createdRow data st with
                catSlugs := cats.map (fun c => c.slug),
                tagSlugs := tags.map (fun t => t.slug) },
      List.mem_map.mpr ⟨{ createdRow data st with catSlugs := cats.map (fun c => c.slug) },
        List.mem_map.mpr ⟨createdRow data st, by simp, by simp⟩, by simp⟩,
      rfl, rfl, rfl, row_not_stored hfind rfl⟩

/-- The record committed in the C2 witness and counterexample. -/
def cexData : ParsedData :=
  { title := "T", summary := "S", source_name := "CNBC",
    original_url := "https://cnbc.com/a", publication_date := none, authors := "A",
    full_text_content := "", categories := ["Health Research"], tags := ["loneliness"] }

/-- C2 witness: on an empty database, a raise at the category attach leaves
the created row with no attachments; a raise at the tag attach leaves it with
its category attached but no tags; a raise at the final save leaves the fully
attached row — each time the caller receives `None`. -/
theorem save_to_db_no_transaction_witness :
    ((save_to_db cexData { noFail with failAddCats := true } ⟨[], [], [], 0⟩).1 = none ∧
     ∃ row ∈ (save_to_db cexData { noFail with failAddCats := true } ⟨[], [], [], 0⟩).2.articles,
       row.original_url = cexData.original_url ∧ row.catSlugs = [] ∧ row.tagSlugs = [] ∧
       row ∉ (⟨[], [], [], 0⟩ : DbState).articles) ∧
    ((save_to_db cexData { noFail with failAddTags := true } ⟨[], [], [], 0⟩).1 = none ∧
     ∃ row ∈ (save_to_db cexData { noFail with failAddTags := true } ⟨[], [], [], 0⟩).2.articles,
       row.original_url = cexData.original_url ∧ row.catSlugs = ["health-research"] ∧
       row.tagSlugs = [] ∧ row ∉ (⟨[], [], [], 0⟩ : DbState).articles) ∧
    ((save_to_db cexData { noFail with failSave := true } ⟨[], [], [], 0⟩).1 = none ∧
     ∃ row ∈ (save_to_db cexData { noFail with failSave := true } ⟨[], [], [], 0⟩).2.articles,
       row.original_url = cexData.original_url ∧ row.catSlugs = ["health-research"] ∧
       row.tagSlugs = ["loneliness"] ∧ row ∉ (⟨[], [], [], 0⟩ : DbState).articles) := by
  refine ⟨?_, ?_, ?_⟩
  · exact (save_to_db_no_transaction cexData ⟨[], [], [], 0⟩
      { noFail with failAddCats := true }).2.2.2.2.1
      [⟨"Health Research", "health-research"⟩] [⟨"Health Research", "health-research"⟩]
      [⟨"loneliness", "loneliness"⟩] [⟨"loneliness", "loneliness"⟩]
      (by decide) (by decide) rfl rfl rfl (by decide) rfl
  · exact (save_to_db_no_transaction cexData ⟨[], [], [], 0⟩
      { noFail with failAddTags := true }).2.2.2.2.2.1
      [⟨"Health Research", "health-research"⟩] [⟨"Health Research", "health-research"⟩]
      [⟨"loneliness", "loneliness"⟩] [⟨"loneliness", "loneliness"⟩]
      (by decide) (by decide) rfl rfl rfl (Or.inr rfl) (by decide) rfl
  · exact (save_to_db_no_transaction cexData ⟨[], [], [], 0⟩
      { noFail with failSave := true }).2.2.2.2.2.2
      [⟨"Health Research", "health-research"⟩] [⟨"Health Research", "health-research"⟩]
      [⟨"loneliness", "loneliness"⟩] [⟨"loneliness", "loneliness"⟩]
      (by decide) (by decide) rfl rfl rfl (Or.inr rfl) (Or.inr rfl) rfl

/-- A run whose only raising database call is `article.categories.add`. -/
def cexSchedule : FailureSchedule :=
  { noFail with failAddCats := true }

/-- C2 counterexample: with an empty database, a raise while attaching
categories makes the commit return `None`, yet the freshly created article row
remains stored, without its taxonomy attachments — leftover state does remain,
so the no-leftover-state requirement fails as stated. -/
theorem save_to_db_leftover_row_cex :
    (save_to_db cexData cexSchedule ⟨[], [], [], 0⟩).1 = none ∧
    (save_to_db cexData cexSchedule ⟨[], [], [], 0⟩).2.articles.map
        (fun r => (r.original_url, r.catSlugs, r.tagSlugs)) =
      [("https://cnbc.com/a", [], [])] := by
  exact ⟨by decide, by decide⟩

end EchoSignal
